import Mathlib

/-!
Shallow embedding of the positioning-and-interaction engine of the
lightweight-charts message-annotation plugins (the social-message and
discord-message plugin examples).

Pixel coordinates and time/price values are modelled as integers; the host
chart's coordinate conversions are partial functions returning Option.
JavaScript Map objects keyed by message id are modelled as association
lists whose set operation replaces in place (preserving insertion order)
and appends fresh keys, matching Map iteration-order semantics.
-/

namespace Charts

/-- Positioning mode enumeration from options.ts. -/
inductive PositioningMode where
  | fixed
  | draggable
deriving DecidableEq, Repr

/-- Discord message record (options.ts, interface DiscordMessage).
Display-only optional fields are omitted; the fields the engine reads and
writes (id, time, price, url) and the display text fields are kept. -/
structure DiscordMessage where
  id : Nat
  time : Int
  price : Int
  username : String
  message : String
  timestamp : String
  discordUrl : String
deriving DecidableEq, Repr

/-- Social message record (social-message options.ts, interface
SocialMessage). -/
structure SocialMessage where
  id : Nat
  time : Int
  price : Int
  platform : String
  username : String
  message : String
  timestamp : String
  platformUrl : String
deriving DecidableEq, Repr

/-- Host chart services consumed by the engine: the time/price to pixel
conversions (null when out of the visible range), the inverse conversions
used by the discord drag-end persistence, and the chart element's bounding
rectangle origin used to translate client coordinates to chart
coordinates. -/
structure Host where
  timeToCoordinate : Int → Option Int
  priceToCoordinate : Int → Option Int
  coordinateToTime : Int → Option Int
  coordinateToPrice : Int → Option Int
  rectLeft : Int
  rectTop : Int

/-- Pixel-offset map: message id to accumulated (dx, dy), modelling the
strategies' private Map of pixel offsets. -/
abbrev Offsets : Type := List (Nat × (Int × Int))

/-- Map.get semantics: the value at the first (unique) matching key. -/
def mapGet : Offsets → Nat → Option (Int × Int)
  | [], _ => none
  | (k, v) :: rest, k' => if k = k' then some v else mapGet rest k'

/-- Map.set semantics: replace in place when the key exists (keeping its
position), append otherwise. -/
def mapSet : Offsets → Nat → (Int × Int) → Offsets
  | [], k, v => [(k, v)]
  | (k0, v0) :: rest, k, v =>
      if k0 = k then (k, v) :: rest else (k0, v0) :: mapSet rest k v

/-- Map.delete semantics: remove the (unique) entry with the key. -/
def mapDelete : Offsets → Nat → Offsets
  | [], _ => []
  | (k0, v0) :: rest, k =>
      if k0 = k then rest else (k0, v0) :: mapDelete rest k

/-- Componentwise addition of pixel vectors. -/
def padd (a b : Int × Int) : Int × Int := (a.1 + b.1, a.2 + b.2)

/-- Componentwise subtraction of pixel vectors. -/
def psub (a b : Int × Int) : Int × Int := (a.1 - b.1, a.2 - b.2)

/-- Offset in effect for a message: the stored entry, or (0, 0). -/
def offsetOr0 (m : Offsets) (k : Nat) : Int × Int :=
  (mapGet m k).getD (0, 0)

/-! Social-message draggable positioning strategy
 (social-message/positioning/draggable-positioning.ts). -/

/-- Drag state of the social draggable strategy: the gesture's start
position and the offset that existed before the gesture started. -/
structure SocialDragState where
  messageId : Nat
  startX : Int
  startY : Int
  initialOffsetX : Int
  initialOffsetY : Int
  isDragging : Bool
deriving DecidableEq, Repr

/-- State of the social DraggablePositioningStrategy instance. -/
structure SocialDragStrategy where
  dragState : Option SocialDragState
  pixelOffsets : Offsets
deriving DecidableEq, Repr

/-- Social DraggablePositioningStrategy.resolveAnchor: base position from
time/price conversion; when an offset entry exists and both base
coordinates are non-null the offset is added componentwise, otherwise the
base pair is returned unmodified. -/
def SocialDragStrategy.resolveAnchor (s : SocialDragStrategy) (h : Host)
    (m : SocialMessage) : Option Int × Option Int :=
  let baseX := h.timeToCoordinate m.time
  let baseY := h.priceToCoordinate m.price
  match mapGet s.pixelOffsets m.id, baseX, baseY with
  | some off, some bx, some bY => (some (bx + off.1), some (bY + off.2))
  | _, _, _ => (baseX, baseY)

/-- Social DraggablePositioningStrategy.handleMouseDown: refuse when the
resolved anchor has a null coordinate; otherwise capture the start
position and the pre-existing offset. -/
def SocialDragStrategy.handleMouseDown (s : SocialDragStrategy) (h : Host)
    (m : SocialMessage) (x y : Int) : SocialDragStrategy :=
  match s.resolveAnchor h m with
  | (some _, some _) =>
      let existing := offsetOr0 s.pixelOffsets m.id
      let ds : SocialDragState :=
        { messageId := m.id, startX := x, startY := y,
          initialOffsetX := existing.1, initialOffsetY := existing.2,
          isDragging := true }
      { s with dragState := some ds }
  | _ => s

/-- Social DraggablePositioningStrategy.handleMouseMove: when a drag state
for this message exists, store initial offset + (current − start). -/
def SocialDragStrategy.handleMouseMove (s : SocialDragStrategy)
    (m : SocialMessage) (x y : Int) : SocialDragStrategy :=
  match s.dragState with
  | some ds =>
      if ds.messageId = m.id then
        let newOffsetX := ds.initialOffsetX + (x - ds.startX)
        let newOffsetY := ds.initialOffsetY + (y - ds.startY)
        { s with pixelOffsets :=
            mapSet s.pixelOffsets m.id (newOffsetX, newOffsetY) }
      else s
  | none => s

/-- Social DraggablePositioningStrategy.handleMouseUp: clears the drag
state only; the pixel offset is kept and the message (passed by reference
in the source) is returned unmodified. -/
def SocialDragStrategy.handleMouseUp (s : SocialDragStrategy)
    (m : SocialMessage) (_x _y : Int) : SocialDragStrategy × SocialMessage :=
  match s.dragState with
  | some ds =>
      if ds.messageId = m.id then ({ s with dragState := none }, m)
      else (s, m)
  | none => (s, m)

/-! Discord-message draggable positioning strategy
 (discord-message/positioning/draggable-positioning.ts). -/

/-- Drag state of the discord draggable strategy: start position plus the
running offset of the current gesture (no initial-offset capture). -/
structure DiscordDragState where
  messageId : Nat
  startX : Int
  startY : Int
  offsetX : Int
  offsetY : Int
  isDragging : Bool
deriving DecidableEq, Repr

/-- State of the discord DraggablePositioningStrategy instance. -/
structure DiscordDragStrategy where
  dragState : Option DiscordDragState
  pixelOffsets : Offsets
deriving DecidableEq, Repr

/-- Discord DraggablePositioningStrategy.resolveAnchor: same shape as the
social variant. -/
def DiscordDragStrategy.resolveAnchor (s : DiscordDragStrategy) (h : Host)
    (m : DiscordMessage) : Option Int × Option Int :=
  let baseX := h.timeToCoordinate m.time
  let baseY := h.priceToCoordinate m.price
  match mapGet s.pixelOffsets m.id, baseX, baseY with
  | some off, some bx, some bY => (some (bx + off.1), some (bY + off.2))
  | _, _, _ => (baseX, baseY)

/-- Discord DraggablePositioningStrategy.handleMouseDown: refuse when the
resolved anchor has a null coordinate; otherwise record the start
position with a zero running offset. -/
def DiscordDragStrategy.handleMouseDown (s : DiscordDragStrategy) (h : Host)
    (m : DiscordMessage) (x y : Int) : DiscordDragStrategy :=
  match s.resolveAnchor h m with
  | (some _, some _) =>
      let ds : DiscordDragState :=
        { messageId := m.id, startX := x, startY := y,
          offsetX := 0, offsetY := 0, isDragging := true }
      { s with dragState := some ds }
  | _ => s

/-- Discord DraggablePositioningStrategy.handleMouseMove: when a drag
state for this message exists, store (current − start) as the offset,
replacing any accumulated value. -/
def DiscordDragStrategy.handleMouseMove (s : DiscordDragStrategy)
    (m : DiscordMessage) (x y : Int) : DiscordDragStrategy :=
  match s.dragState with
  | some ds =>
      if ds.messageId = m.id then
        let offsetX := x - ds.startX
        let offsetY := y - ds.startY
        let ds2 : DiscordDragState := { ds with offsetX := offsetX, offsetY := offsetY }
        { s with
            dragState := some ds2,
            pixelOffsets := mapSet s.pixelOffsets m.id (offsetX, offsetY) }
      else s
  | none => s

/-- Discord DraggablePositioningStrategy.handleMouseUp: converts the
displaced position back to time/price through the host's inverse
conversions; when both succeed the message's anchor is rewritten and the
offset entry deleted, otherwise both are left as they were. The drag
state is cleared in every matching case. -/
def DiscordDragStrategy.handleMouseUp (s : DiscordDragStrategy) (h : Host)
    (m : DiscordMessage) (_x _y : Int) : DiscordDragStrategy × DiscordMessage :=
  match s.dragState with
  | some ds =>
      if ds.messageId = m.id then
        match s.resolveAnchor h m with
        | (some ax, some ay) =>
            match h.coordinateToTime ax, h.coordinateToPrice ay with
            | some newTime, some newPrice =>
                let s2 : DiscordDragStrategy :=
                  { dragState := none,
                    pixelOffsets := mapDelete s.pixelOffsets m.id }
                let m2 : DiscordMessage := { m with time := newTime, price := newPrice }
                (s2, m2)
            | _, _ => ({ s with dragState := none }, m)
        | _ => ({ s with dragState := none }, m)
      else (s, m)
  | none => (s, m)

/-- Discord DraggablePositioningStrategy.detach: clears drag state and all
cached offsets. -/
def DiscordDragStrategy.detach (_s : DiscordDragStrategy) : DiscordDragStrategy :=
  { dragState := none, pixelOffsets := [] }

/-! Options (discord-message/options.ts). -/

/-- Plugin customization options (interface DiscordMessageOptions). -/
structure DiscordMessageOptions where
  positioningMode : PositioningMode
  cardBackgroundColor : String
  cardBorderColor : String
  cardBorderRadius : Int
  usernameColor : String
  usernameFont : String
  messageColor : String
  messageFont : String
  timestampColor : String
  timestampFont : String
  cardWidth : Int
  cardPadding : Int
  lineHeight : Int
  showDiscordLogo : Bool
  showAvatar : Bool
  hoverBackgroundColor : String
  cursorOnHover : String
deriving DecidableEq, Repr

/-- defaultOptions from discord-message/options.ts. -/
def defaultOptions : DiscordMessageOptions where
  positioningMode := .fixed
  cardBackgroundColor := "#36393f"
  cardBorderColor := "#202225"
  cardBorderRadius := 8
  usernameColor := "#ffffff"
  usernameFont := "bold 14px sans-serif"
  messageColor := "#dcddde"
  messageFont := "12px sans-serif"
  timestampColor := "#72767d"
  timestampFont := "10px sans-serif"
  cardWidth := 280
  cardPadding := 12
  lineHeight := 18
  showDiscordLogo := true
  showAvatar := false
  hoverBackgroundColor := "#2f3136"
  cursorOnHover := "pointer"

/-- Social plugin customization options (social-message/options.ts,
interface SocialMessageOptions); the optional platformAdapter object is
omitted, only data fields are modelled. -/
structure SocialMessageOptions where
  positioningMode : PositioningMode
  cardBackgroundColor : String
  cardBorderColor : String
  cardBorderRadius : Int
  usernameColor : String
  usernameFont : String
  messageColor : String
  messageFont : String
  timestampColor : String
  timestampFont : String
  cardWidth : Int
  cardPadding : Int
  lineHeight : Int
  showPlatformIcon : Bool
  showAvatar : Bool
  hoverBackgroundColor : String
  cursorOnHover : String
deriving DecidableEq, Repr

/-! Layout helpers (utils/layout.ts). -/

/-- calculateCardHeight: padding + username + message + timestamp +
padding, i.e. cardPadding * 2 + lineHeight * 3. -/
def calculateCardHeight (o : DiscordMessageOptions) : Int :=
  o.cardPadding * 2 + o.lineHeight * 3

/-- calculateCardHeight of the social plugin (same formula over
SocialMessageOptions). -/
def socialCalculateCardHeight (o : SocialMessageOptions) : Int :=
  o.cardPadding * 2 + o.lineHeight * 3

/-! Animation scheduler (utils/animation-scheduler.ts). -/

/-- AnimationScheduler state: whether a requestAnimationFrame id and a
stored callback are present. -/
structure AnimationScheduler where
  rafPending : Bool
  hasCallback : Bool
deriving DecidableEq, Repr

/-- AnimationScheduler.schedule: cancels any previously scheduled frame
and stores the new callback; afterwards exactly one frame is pending. -/
def AnimationScheduler.schedule (_s : AnimationScheduler) : AnimationScheduler :=
  { rafPending := true, hasCallback := true }

/-- AnimationScheduler.cancel: clears the pending frame and the stored
callback. -/
def AnimationScheduler.cancel (_s : AnimationScheduler) : AnimationScheduler :=
  { rafPending := false, hasCallback := false }

/-- AnimationScheduler.isPending: whether a frame callback is scheduled. -/
def AnimationScheduler.isPending (s : AnimationScheduler) : Bool :=
  s.rafPending

/-! Messages state (discord-message/state/messages-state.ts). The
Map keyed by id is modelled as a list in Map iteration order: set
replaces in place, fresh ids are appended. -/

/-- Map.set on the message collection. -/
def msgsSet : List DiscordMessage → DiscordMessage → List DiscordMessage
  | [], m => [m]
  | m0 :: rest, m => if m0.id = m.id then m :: rest else m0 :: msgsSet rest m

/-- MessagesState.addMessage: Map.set (replace or append). -/
def msgsAdd (ms : List DiscordMessage) (m : DiscordMessage) : List DiscordMessage :=
  msgsSet ms m

/-- MessagesState.updateMessage: no-op when the id is unknown, otherwise
Map.set. -/
def msgsUpdate (ms : List DiscordMessage) (m : DiscordMessage) : List DiscordMessage :=
  if ms.any (fun m0 => m0.id = m.id) then msgsSet ms m else ms

/-- MessagesState.removeMessage: delete the entry with the id. -/
def msgsRemove (ms : List DiscordMessage) (id : Nat) : List DiscordMessage :=
  ms.filter (fun m0 => m0.id ≠ id)

/-! Positioning strategies as the interchangeable union used by the
discord primitive (FixedPositioningStrategy has no state; the optional
handler methods of the interface are no-ops for it, mirroring the
optional-chaining calls in the primitive). -/

/-- FixedPositioningStrategy.resolveAnchor: the host conversion results,
unmodified. -/
def fixedResolveAnchor (h : Host) (m : DiscordMessage) : Option Int × Option Int :=
  (h.timeToCoordinate m.time, h.priceToCoordinate m.price)

/-- Active positioning strategy of the discord primitive. -/
inductive Strategy where
  | fixed
  | draggable (s : DiscordDragStrategy)
deriving DecidableEq, Repr

/-- Dispatch of resolveAnchor over the active strategy. -/
def Strategy.resolveAnchor : Strategy → Host → DiscordMessage → Option Int × Option Int
  | .fixed, h, m => fixedResolveAnchor h m
  | .draggable s, h, m => s.resolveAnchor h m

/-- Dispatch of the optional handleMouseDown (no-op for fixed). -/
def Strategy.handleMouseDown : Strategy → Host → DiscordMessage → Int → Int → Strategy
  | .fixed, _, _, _, _ => .fixed
  | .draggable s, h, m, x, y => .draggable (s.handleMouseDown h m x y)

/-- Dispatch of the optional handleMouseMove (no-op for fixed). -/
def Strategy.handleMouseMove : Strategy → DiscordMessage → Int → Int → Strategy
  | .fixed, _, _, _ => .fixed
  | .draggable s, m, x, y => .draggable (s.handleMouseMove m x y)

/-- Dispatch of the optional handleMouseUp (no-op for fixed). -/
def Strategy.handleMouseUp : Strategy → Host → DiscordMessage → Int → Int → Strategy × DiscordMessage
  | .fixed, _, m, _, _ => (.fixed, m)
  | .draggable s, h, m, x, y =>
      let r := s.handleMouseUp h m x y
      (.draggable r.1, r.2)

/-- Dispatch of the optional detach (no-op for fixed). -/
def Strategy.strategyDetach : Strategy → Strategy
  | .fixed => .fixed
  | .draggable s => .draggable s.detach

/-- Pixel-offset map of the active strategy (empty for fixed), used to
state offset-mutation properties. -/
def Strategy.offsets : Strategy → Offsets
  | .fixed => []
  | .draggable s => s.pixelOffsets

/-! The discord message primitive (discord-message.ts): message store,
options, active strategy, hover id, drag record and listener bookkeeping.
Event-listener attachment is modelled as booleans; an event handler runs
only when its listener flag is set, mirroring DOM dispatch. -/

/-- Mutable state of a DiscordMessagePrimitive instance. -/
structure Prim where
  messages : List DiscordMessage
  options : DiscordMessageOptions
  strategy : Strategy
  hoveredMessageId : Option Nat
  dragState : Option (Nat × DiscordMessage)
  isDragging : Bool
  dragStartPos : Option (Int × Int)
  chartMouseDownListener : Bool
  docMoveListener : Bool
  docUpListener : Bool
  scheduler : AnimationScheduler
  panEnabled : Bool
  dragResetPending : Bool
  openedUrls : List String
deriving DecidableEq, Repr

/-- DiscordMessagePrimitive._messageAtPoint: walk the store in insertion
order; the first message whose resolved anchor has both coordinates
non-null and whose card box contains (x, y) wins. -/
def messageAtPointList (st : Strategy) (h : Host) (o : DiscordMessageOptions)
    (x y : Int) : List DiscordMessage → Option DiscordMessage
  | [] => none
  | m :: rest =>
      match st.resolveAnchor h m with
      | (some ax, some ay) =>
          if x ≥ ax ∧ x ≤ ax + o.cardWidth ∧
             y ≥ ay ∧ y ≤ ay + calculateCardHeight o then
            some m
          else messageAtPointList st h o x y rest
      | _ => messageAtPointList st h o x y rest

/-- Hit test entry point of the primitive. -/
def Prim.messageAtPoint (p : Prim) (h : Host) (x y : Int) : Option DiscordMessage :=
  messageAtPointList p.strategy h p.options x y p.messages

/-- DiscordMessagePrimitive._removeDocumentDragListeners. -/
def Prim.removeDocumentDragListeners (p : Prim) : Prim :=
  { p with docMoveListener := false, docUpListener := false }

/-- DiscordMessagePrimitive._detachDragListeners: removes the document
listeners, the chart-element mousedown listener, and resets the drag
record. -/
def Prim.detachDragListeners (p : Prim) : Prim :=
  let p := p.removeDocumentDragListeners
  { p with chartMouseDownListener := false,
           dragState := none, isDragging := false, dragStartPos := none }

/-- DiscordMessagePrimitive._attachDragListeners. -/
def Prim.attachDragListeners (p : Prim) : Prim :=
  { p with chartMouseDownListener := true }

/-- DiscordMessagePrimitive._onMouseDown: runs only while the
chart-element mousedown listener is attached; on a card hit it disables
chart panning, creates the unconfirmed drag record, records the start
position in client coordinates, forwards to the strategy in chart
coordinates and attaches the document move/up listeners. -/
def Prim.onMouseDown (p : Prim) (h : Host) (clientX clientY : Int) : Prim :=
  if p.chartMouseDownListener then
    let x := clientX - h.rectLeft
    let y := clientY - h.rectTop
    match p.messageAtPoint h x y with
    | none => p
    | some m =>
        { p with
            panEnabled := false,
            dragState := some (m.id, m),
            isDragging := false,
            dragStartPos := some (clientX, clientY),
            strategy := p.strategy.handleMouseDown h m x y,
            docMoveListener := true,
            docUpListener := true }
  else p

/-- DiscordMessagePrimitive._onDocumentMouseMove: below the 5 px drag
threshold (squared Euclidean distance < 25) an unconfirmed drag returns
early; otherwise the drag is confirmed, the strategy is forwarded the
chart-coordinate position, and a coalesced redraw is scheduled. -/
def Prim.onDocumentMouseMove (p : Prim) (h : Host) (clientX clientY : Int) : Prim :=
  if p.docMoveListener then
    match p.dragState, p.dragStartPos with
    | some ds, some sp =>
        let dx := clientX - sp.1
        let dy := clientY - sp.2
        if ¬p.isDragging ∧ dx * dx + dy * dy < 25 then p
        else
          let x := clientX - h.rectLeft
          let y := clientY - h.rectTop
          { p with
              isDragging := true,
              strategy := p.strategy.handleMouseMove ds.2 x y,
              scheduler := p.scheduler.schedule }
    | _, _ => p
  else p

/-- Body of DiscordMessagePrimitive._onDocumentMouseUp (also invoked
directly with a synthetic event by updatePositioningMode): when a drag
record exists, a confirmed drag forwards to the strategy and persists the
message to the store; panning is re-enabled, the document listeners are
removed, the drag record is cleared, and the isDragging reset is deferred
to a zero-delay timeout. -/
def Prim.onDocumentMouseUpBody (p : Prim) (h : Host) (clientX clientY : Int) : Prim :=
  match p.dragState with
  | none => p
  | some ds =>
      let p :=
        if p.isDragging then
          let x := clientX - h.rectLeft
          let y := clientY - h.rectTop
          let r := p.strategy.handleMouseUp h ds.2 x y
          { p with strategy := r.1, messages := msgsUpdate p.messages r.2 }
        else p
      { p with
          panEnabled := true,
          docMoveListener := false,
          docUpListener := false,
          dragState := none,
          dragStartPos := none,
          dragResetPending := true }

/-- Event-dispatch wrapper of the document mouseup handler: runs only
while the document mouseup listener is attached. -/
def Prim.onDocumentMouseUp (p : Prim) (h : Host) (clientX clientY : Int) : Prim :=
  if p.docUpListener then p.onDocumentMouseUpBody h clientX clientY else p

/-- Zero-delay timeout scheduled by the mouseup handler: clears
isDragging. -/
def Prim.onDragResetTimeout (p : Prim) : Prim :=
  if p.dragResetPending then { p with isDragging := false, dragResetPending := false }
  else p

/-- DiscordMessagePrimitive._onCrosshairMove: while a confirmed drag is
active the hover id is pinned to the dragged message; otherwise the hover
id follows the hit test (null when the crosshair left the chart). -/
def Prim.onCrosshairMove (p : Prim) (h : Host) (point : Option (Int × Int)) : Prim :=
  match p.dragState with
  | some ds =>
      if p.isDragging then { p with hoveredMessageId := some ds.2.id }
      else
        match point with
        | none => { p with hoveredMessageId := none }
        | some pt =>
            let m := p.messageAtPoint h pt.1 pt.2
            { p with hoveredMessageId := m.map (fun m0 => m0.id) }
  | none =>
      match point with
      | none => { p with hoveredMessageId := none }
      | some pt =>
          let m := p.messageAtPoint h pt.1 pt.2
          { p with hoveredMessageId := m.map (fun m0 => m0.id) }

/-- DiscordMessagePrimitive._clickHandler: no point means no action; a
just-finished confirmed drag (isDragging still set via the deferred
reset) suppresses the click; otherwise a hit opens the message's discord
URL. -/
def Prim.clickHandler (p : Prim) (h : Host) (point : Option (Int × Int)) : Prim :=
  match point with
  | none => p
  | some pt =>
      if p.isDragging then p
      else
        match p.messageAtPoint h pt.1 pt.2 with
        | some m => { p with openedUrls := p.openedUrls ++ [m.discordUrl] }
        | none => p

/-- DiscordMessagePrimitive.updatePositioningMode: force-ends any active
drag by invoking the mouseup body with a synthetic event (whose client
coordinates are 0, 0) before the old strategy is detached and replaced;
drag listeners are detached when the current options still say draggable,
and attached when the new mode is draggable. -/
def Prim.updatePositioningMode (p : Prim) (h : Host) (mode : PositioningMode) : Prim :=
  let p := if p.dragState.isSome then p.onDocumentMouseUpBody h 0 0 else p
  let p := if p.options.positioningMode = .draggable then p.detachDragListeners else p
  let p := { p with strategy := p.strategy.strategyDetach }
  let newStrategy : Strategy :=
    match mode with
    | .fixed => .fixed
    | .draggable => .draggable { dragState := none, pixelOffsets := [] }
  let p := { p with strategy := newStrategy }
  let p := if mode = .draggable then p.attachDragListeners else p
  p

/-- DiscordMessagePrimitive.setPositioningMode: writes the mode into the
options first, then updates the strategy. -/
def Prim.setPositioningMode (p : Prim) (h : Host) (mode : PositioningMode) : Prim :=
  let p := { p with options := { p.options with positioningMode := mode } }
  p.updatePositioningMode h mode

/-- DiscordMessagePrimitive.detached: removes the document listeners
first, then detaches the drag listeners, cancels any pending scheduled
redraw and detaches the strategy. -/
def Prim.detachedTeardown (p : Prim) : Prim :=
  let p := p.removeDocumentDragListeners
  let p := p.detachDragListeners
  let p := { p with scheduler := p.scheduler.cancel }
  { p with strategy := p.strategy.strategyDetach }

/-! Render snapshot builders (view/discord-message-pane-view.ts and the
social-message pane view). -/

/-- Modelled from the spec: the social-message FixedPositioningStrategy
file is not under src/ (only the draggable variant and the interface
are); per §4.1 the fixed variant is stateless and returns the host
conversion result unmodified. -/
def socialFixedResolveAnchor (h : Host) (m : SocialMessage) : Option Int × Option Int :=
  (h.timeToCoordinate m.time, h.priceToCoordinate m.price)

/-- Active positioning strategy of the social primitive. -/
inductive SocialStrategy where
  | fixed
  | draggable (s : SocialDragStrategy)
deriving DecidableEq, Repr

/-- Dispatch of resolveAnchor over the active social strategy. -/
def SocialStrategy.resolveAnchor : SocialStrategy → Host → SocialMessage → Option Int × Option Int
  | .fixed, h, m => socialFixedResolveAnchor h m
  | .draggable s, h, m => s.resolveAnchor h m

/-- Drawable record of the social pane renderer
(social-message/renderer/irenderer-data.ts): card position, the original
anchor point (either coordinate possibly null) and the hover flag. -/
structure SocialRendererData where
  message : SocialMessage
  x : Int
  y : Int
  anchorX : Option Int
  anchorY : Option Int
  options : SocialMessageOptions
  isHovered : Bool
deriving DecidableEq, Repr

/-- Drawable record of the discord pane renderer
(discord-message/renderer/irenderer-data.ts): card position and hover
flag only; no anchor-point fields exist in this record type. -/
structure DiscordRendererData where
  message : DiscordMessage
  x : Int
  y : Int
  options : DiscordMessageOptions
  isHovered : Bool
deriving DecidableEq, Repr

/-- SocialMessagePaneView.update: one record per message whose resolved
position has both coordinates non-null, carrying the displayed position,
the independently recomputed base anchor (ignoring any drag offset) and
the hover flag; other messages are skipped. -/
def socialViewUpdate (st : SocialStrategy) (h : Host) (o : SocialMessageOptions)
    (hoveredId : Option Nat) : List SocialMessage → List SocialRendererData
  | [] => []
  | m :: rest =>
      match st.resolveAnchor h m with
      | (some ax, some ay) =>
          { message := m, x := ax, y := ay,
            anchorX := h.timeToCoordinate m.time,
            anchorY := h.priceToCoordinate m.price,
            options := o,
            isHovered := hoveredId = some m.id } ::
            socialViewUpdate st h o hoveredId rest
      | _ => socialViewUpdate st h o hoveredId rest

/-- DiscordMessagePaneView.update: one record per message whose resolved
position has both coordinates non-null, carrying the displayed position
and the hover flag; no base anchor is recorded. -/
def discordViewUpdate (st : Strategy) (h : Host) (o : DiscordMessageOptions)
    (hoveredId : Option Nat) : List DiscordMessage → List DiscordRendererData
  | [] => []
  | m :: rest =>
      match st.resolveAnchor h m with
      | (some ax, some ay) =>
          { message := m, x := ax, y := ay,
            options := o,
            isHovered := hoveredId = some m.id } ::
            discordViewUpdate st h o hoveredId rest
      | _ => discordViewUpdate st h o hoveredId rest

/-! Object-identity model for the options accessor. The source's
options() returns a spread copy of the private options object; to state
that mutating the returned object leaves the plugin's configuration
unchanged, option objects live in a small addressed heap and the
accessor allocates a fresh cell holding a copy. -/

/-- Heap of option objects; an address is an index. -/
abbrev OptionsHeap : Type := List DiscordMessageOptions

/-- Read the object at an address. -/
def heapRead (h : OptionsHeap) (a : Nat) : Option DiscordMessageOptions :=
  h[a]?

/-- Mutate the object at an address in place. -/
def heapWrite (h : OptionsHeap) (a : Nat) (v : DiscordMessageOptions) : OptionsHeap :=
  h.set a v

/-- DiscordMessagePrimitive.options: returns a shallow copy of the
private options object, modelled as allocating a fresh heap cell with
the same field values and returning its address. -/
def optionsAccessor (h : OptionsHeap) (a : Nat) : OptionsHeap × Nat :=
  match heapRead h a with
  | some v => (h ++ [v], h.length)
  | none => (h, a)

/-! Gesture sequences over the strategies, used to state the
drag-accumulation properties. A gesture is a mouse-down at a start
position, a sequence of move positions, and a mouse-up (whose event
position both strategies ignore). -/

/-- One completed drag gesture: pointer-down position and the positions
of the subsequent moves. -/
structure Gesture where
  start : Int × Int
  moves : List (Int × Int)
deriving DecidableEq, Repr

/-- Fold of the social strategy's move handler over a list of move
positions. -/
def socialRunMoves (m : SocialMessage) : SocialDragStrategy → List (Int × Int) → SocialDragStrategy
  | s, [] => s
  | s, q :: rest => socialRunMoves m (s.handleMouseMove m q.1 q.2) rest

/-- One complete gesture against the social strategy: down, moves, up. -/
def socialRunGesture (h : Host) (m : SocialMessage) (s : SocialDragStrategy)
    (g : Gesture) : SocialDragStrategy :=
  let s1 := s.handleMouseDown h m g.start.1 g.start.2
  let s2 := socialRunMoves m s1 g.moves
  (s2.handleMouseUp m 0 0).1

/-- Fold of complete gestures against the social strategy. -/
def socialRunGestures (h : Host) (m : SocialMessage) : SocialDragStrategy → List Gesture → SocialDragStrategy
  | s, [] => s
  | s, g :: rest => socialRunGestures h m (socialRunGesture h m s g) rest

/-- Net pointer travel of a gesture: end pointer (last move position;
the start itself when there is no move) minus start pointer. -/
def gestureDelta (g : Gesture) : Int × Int :=
  psub (g.moves.getLastD g.start) g.start

/-- Componentwise sum of the gesture deltas. -/
def sumDeltas (gs : List Gesture) : Int × Int :=
  gs.foldr (fun g acc => padd (gestureDelta g) acc) (0, 0)

/-- Fold of the discord strategy's move handler over a list of move
positions. -/
def discordRunMoves (m : DiscordMessage) : DiscordDragStrategy → List (Int × Int) → DiscordDragStrategy
  | s, [] => s
  | s, q :: rest => discordRunMoves m (s.handleMouseMove m q.1 q.2) rest

/-- One complete gesture against the discord strategy: down, moves, up.
The strategy's mouse-up may rewrite the message, which is dropped here
because only the resulting offset map is observed. -/
def discordRunGesture (h : Host) (m : DiscordMessage) (s : DiscordDragStrategy)
    (g : Gesture) : DiscordDragStrategy :=
  let s1 := s.handleMouseDown h m g.start.1 g.start.2
  let s2 := discordRunMoves m s1 g.moves
  (s2.handleMouseUp h m 0 0).1

/-! Concrete fixtures used by counterexamples and witnesses. -/

/-- Host fixture: time 50 maps to pixel 120, price 100 to pixel 80, and
the inverse conversions map pixel 150 back to time 53 and pixel 70 back
to price 95; the chart rectangle starts at the viewport origin. -/
def exHost : Host where
  timeToCoordinate := fun t => if t = 50 then some 120 else none
  priceToCoordinate := fun v => if v = 100 then some 80 else none
  coordinateToTime := fun x => if x = 150 then some 53 else none
  coordinateToPrice := fun y => if y = 70 then some 95 else none
  rectLeft := 0
  rectTop := 0

/-- Discord message fixture anchored at (time 50, price 100). -/
def exMsg : DiscordMessage :=
  { id := 1, time := 50, price := 100, username := "alice",
    message := "hello", timestamp := "now",
    discordUrl := "https://discord.test/1" }

/-- Social message fixture anchored at (time 50, price 100). -/
def exSocialMsg : SocialMessage :=
  { id := 1, time := 50, price := 100, platform := "discord",
    username := "alice", message := "hello", timestamp := "now",
    platformUrl := "https://social.test/1" }

/-- Discord draggable strategy fixture mid-drag with an accumulated
offset of (30, -10) for message 1. -/
def exDiscordStrategy : DiscordDragStrategy where
  dragState := some
    { messageId := 1, startX := 10, startY := 10,
      offsetX := 30, offsetY := -10, isDragging := true }
  pixelOffsets := [(1, (30, -10))]

/-- Fresh discord draggable strategy fixture with no drag state and no
offsets. -/
def exFreshDiscordStrategy : DiscordDragStrategy where
  dragState := none
  pixelOffsets := []

/-- Fresh social draggable strategy fixture with no drag state and no
offsets. -/
def exFreshSocialStrategy : SocialDragStrategy where
  dragState := none
  pixelOffsets := []

/-- Squared Euclidean distance between two pointer positions; the 5 px
drag threshold test of the primitive is distance squared against 25. -/
def sqDist (q s : Int × Int) : Int :=
  (q.1 - s.1) * (q.1 - s.1) + (q.2 - s.2) * (q.2 - s.2)

/-- Fold of the primitive's document mousemove handler over a list of
client positions. -/
def primRunMoves (h : Host) : Prim → List (Int × Int) → Prim
  | p, [] => p
  | p, q :: rest => primRunMoves h (p.onDocumentMouseMove h q.1 q.2) rest

/-- Strategy drag state with the running offset fields overwritten; the
shape the discord move handler produces. -/
def updSds (sds : DiscordDragState) (d : Int × Int) : DiscordDragState :=
  { sds with offsetX := d.1, offsetY := d.2 }

/-- Strategy drag state created by a pointer-down at client position sp
(chart coordinates sp − rect origin), carrying running offset d. -/
def gestureSds (m : DiscordMessage) (sp : Int × Int) (h : Host) (d : Int × Int) : DiscordDragState :=
  { messageId := m.id, startX := sp.1 - h.rectLeft, startY := sp.2 - h.rectTop,
    offsetX := d.1, offsetY := d.2, isDragging := true }

/-- Offset the discord strategy stores for a move to client position
(cx, cy) of a gesture started at client position sp: chart-coordinate
current position minus chart-coordinate start position. -/
def moveDelta (h : Host) (sp : Int × Int) (cx cy : Int) : Int × Int :=
  ((cx - h.rectLeft) - (sp.1 - h.rectLeft), (cy - h.rectTop) - (sp.2 - h.rectTop))

/-- Shape of the primitive's state while a drag gesture on message m is
in flight (proof abbreviation for the reachable mid-drag states): the
drag record, start position and document listeners are set, panning is
disabled and the strategy holds the gesture's drag state. -/
def midDragState (p0 : Prim) (m : DiscordMessage) (sp : Int × Int) (drag : Bool)
    (sds : DiscordDragState) (po : Offsets) (sch : AnimationScheduler) : Prim :=
  { p0 with
      panEnabled := false,
      dragState := some (m.id, m),
      isDragging := drag,
      dragStartPos := some sp,
      strategy := .draggable { dragState := some sds, pixelOffsets := po },
      docMoveListener := true,
      docUpListener := true,
      scheduler := sch }

/-- Prim fixture mid-drag on message 1 (used as a concrete witness
state). -/
def exPrimDrag : Prim where
  messages := [exMsg]
  options := { defaultOptions with positioningMode := .draggable }
  strategy := .draggable exDiscordStrategy
  hoveredMessageId := none
  dragState := some (1, exMsg)
  isDragging := true
  dragStartPos := some (10, 10)
  chartMouseDownListener := true
  docMoveListener := true
  docUpListener := true
  scheduler := { rafPending := false, hasCallback := false }
  panEnabled := false
  dragResetPending := false
  openedUrls := []

/-- Prim fixture in draggable mode, idle, with one message and a fresh
strategy. -/
def exPrimFresh : Prim where
  messages := [exMsg]
  options := { defaultOptions with positioningMode := .draggable }
  strategy := .draggable exFreshDiscordStrategy
  hoveredMessageId := none
  dragState := none
  isDragging := false
  dragStartPos := none
  chartMouseDownListener := true
  docMoveListener := false
  docUpListener := false
  scheduler := { rafPending := false, hasCallback := false }
  panEnabled := true
  dragResetPending := false
  openedUrls := []

/-! Helper lemmas about the map operations. -/

theorem mapGet_mapSet (l : Offsets) (k : Nat) (v : Int × Int) :
    mapGet (mapSet l k v) k = some v := by
  induction l with
  | nil => simp [mapSet, mapGet]
  | cons e rest ih =>
      by_cases hk : e.1 = k
      · simp [mapSet, hk, mapGet]
      · simp [mapSet, hk, mapGet, ih]

theorem mapSet_mapSet (l : Offsets) (k : Nat) (v w : Int × Int) :
    mapSet (mapSet l k v) k w = mapSet l k w := by
  induction l with
  | nil => simp [mapSet]
  | cons e rest ih =>
      by_cases hk : e.1 = k
      · simp [mapSet, hk]
      · simp [mapSet, hk, ih]

theorem padd_zero (a : Int × Int) : padd a (0, 0) = a := by
  cases a; simp [padd]

theorem padd_assoc (a b c : Int × Int) : padd (padd a b) c = padd a (padd b c) := by
  cases a; cases b; cases c; simp [padd, Int.add_assoc]

/-! Claim C1. -/

/-- Claim C1 (amended): in the social-message draggable strategy, ending
a drag (handleMouseUp) never changes the pixel-offset map and never
changes the message's logical (time, price) anchor; only the transient
drag record is cleared. -/
theorem social_endDrag_retains_offset_and_anchor
    (s : SocialDragStrategy) (m : SocialMessage) (x y : Int) :
    (s.handleMouseUp m x y).1.pixelOffsets = s.pixelOffsets ∧
    (s.handleMouseUp m x y).2 = m := by
  unfold SocialDragStrategy.handleMouseUp
  cases hds : s.dragState with
  | none => exact ⟨rfl, rfl⟩
  | some ds => by_cases hid : ds.messageId = m.id <;> simp [hid]

/-- Counterexample to claim C1 as stated: the discord-message draggable
strategy's handleMouseUp, at a state with a confirmed drag of message 1
and offset (30, -10) and a host whose inverse conversions succeed,
rewrites the message's time anchor (50 becomes 53) and deletes the
pixel-offset entry. -/
theorem discord_endDrag_rewrites_anchor_counterexample :
    (exDiscordStrategy.handleMouseUp exHost exMsg 40 0).2.time ≠ exMsg.time ∧
    mapGet (exDiscordStrategy.handleMouseUp exHost exMsg 40 0).1.pixelOffsets 1 = none := by
  exact ⟨by decide, by decide⟩

/-! Claim C5. -/

/-- Claim C5: whenever a drag record exists and is confirmed, processing
a crosshair-move event with any reported point (including none, empty
space, or a point over another card) leaves the hover id equal to the
dragged message's id. -/
theorem crosshair_hover_pinned_during_drag (p : Prim) (h : Host)
    (pt : Option (Int × Int)) (ds : Nat × DiscordMessage)
    (hds : p.dragState = some ds) (hdrag : p.isDragging = true) :
    (p.onCrosshairMove h pt).hoveredMessageId = some ds.2.id := by
  unfold Prim.onCrosshairMove
  rw [hds]
  simp [hdrag]

/-- Witness for claim C5 at a concrete mid-drag state and a pointer
position far from every card. -/
theorem crosshair_hover_pinned_witness :
    (exPrimDrag.onCrosshairMove exHost (some (999, 999))).hoveredMessageId = some 1 :=
  crosshair_hover_pinned_during_drag exPrimDrag exHost (some (999, 999)) (1, exMsg) rfl rfl

/-! Claim C7. -/

/-- Claim C7: detachment from any state removes the document-level
move/up listeners, the chart-element mousedown listener, and cancels any
pending scheduled redraw: afterwards no global listener is attached and
no redraw is pending. -/
theorem detached_clears_listeners_and_redraw (p : Prim) :
    p.detachedTeardown.docMoveListener = false ∧
    p.detachedTeardown.docUpListener = false ∧
    p.detachedTeardown.chartMouseDownListener = false ∧
    p.detachedTeardown.scheduler.isPending = false :=
  ⟨rfl, rfl, rfl, rfl⟩

/-! Claim C8. -/

/-- Claim C8: in both draggable strategy variants, resolveAnchor yields a
fully non-null point exactly when both base conversions are non-null, a
null base coordinate is propagated to the result, and when both base
coordinates are non-null the result is the base position plus the
message's pixel-offset entry (the base position itself when no entry
exists). -/
theorem draggable_resolveAnchor_offset_and_null_propagation :
    (∀ (s : DiscordDragStrategy) (h : Host) (m : DiscordMessage),
      (((s.resolveAnchor h m).1.isSome ∧ (s.resolveAnchor h m).2.isSome) ↔
        ((h.timeToCoordinate m.time).isSome ∧ (h.priceToCoordinate m.price).isSome)) ∧
      (h.timeToCoordinate m.time = none → (s.resolveAnchor h m).1 = none) ∧
      (h.priceToCoordinate m.price = none → (s.resolveAnchor h m).2 = none) ∧
      (∀ bx bY, h.timeToCoordinate m.time = some bx →
        h.priceToCoordinate m.price = some bY →
        s.resolveAnchor h m =
          (some (bx + (offsetOr0 s.pixelOffsets m.id).1),
           some (bY + (offsetOr0 s.pixelOffsets m.id).2)))) ∧
    (∀ (s : SocialDragStrategy) (h : Host) (m : SocialMessage),
      (((s.resolveAnchor h m).1.isSome ∧ (s.resolveAnchor h m).2.isSome) ↔
        ((h.timeToCoordinate m.time).isSome ∧ (h.priceToCoordinate m.price).isSome)) ∧
      (h.timeToCoordinate m.time = none → (s.resolveAnchor h m).1 = none) ∧
      (h.priceToCoordinate m.price = none → (s.resolveAnchor h m).2 = none) ∧
      (∀ bx bY, h.timeToCoordinate m.time = some bx →
        h.priceToCoordinate m.price = some bY →
        s.resolveAnchor h m =
          (some (bx + (offsetOr0 s.pixelOffsets m.id).1),
           some (bY + (offsetOr0 s.pixelOffsets m.id).2)))) := by
  constructor
  · intro s h m
    unfold DiscordDragStrategy.resolveAnchor offsetOr0
    rcases hg : mapGet s.pixelOffsets m.id with _ | off <;>
      rcases hx : h.timeToCoordinate m.time with _ | bx <;>
        rcases hy : h.priceToCoordinate m.price with _ | bY <;>
          simp [hg, hx, hy]
  · intro s h m
    unfold SocialDragStrategy.resolveAnchor offsetOr0
    rcases hg : mapGet s.pixelOffsets m.id with _ | off <;>
      rcases hx : h.timeToCoordinate m.time with _ | bx <;>
        rcases hy : h.priceToCoordinate m.price with _ | bY <;>
          simp [hg, hx, hy]

/-- Witness for claim C8 at a concrete strategy, host and message: both
base coordinates resolve, an offset entry (30, -10) exists, and the
resolved anchor is the base (120, 80) displaced to (150, 70). -/
theorem draggable_resolveAnchor_witness :
    exDiscordStrategy.resolveAnchor exHost exMsg = (some 150, some 70) := by
  have h := (draggable_resolveAnchor_offset_and_null_propagation.1
    exDiscordStrategy exHost exMsg).2.2.2 120 80 (by decide) (by decide)
  simpa [offsetOr0] using h

/-! Claim C4. -/

/-- Hit-test box predicate of a single message: the resolved anchor has
both coordinates non-null and (x, y) lies in the card's axis-aligned box
whose height is two paddings plus three line heights. -/
def hitPred (st : Strategy) (h : Host) (o : DiscordMessageOptions)
    (x y : Int) (m : DiscordMessage) : Bool :=
  match st.resolveAnchor h m with
  | (some ax, some ay) =>
      decide (x ≥ ax ∧ x ≤ ax + o.cardWidth ∧
              y ≥ ay ∧ y ≤ ay + (o.cardPadding * 2 + o.lineHeight * 3))
  | _ => false

theorem messageAtPointList_eq_find (st : Strategy) (h : Host)
    (o : DiscordMessageOptions) (x y : Int) (ms : List DiscordMessage) :
    messageAtPointList st h o x y ms = ms.find? (hitPred st h o x y) := by
  induction ms with
  | nil => rfl
  | cons m rest ih =>
      unfold messageAtPointList
      simp only [calculateCardHeight]
      rcases hr : st.resolveAnchor h m with ⟨ax | ax, ay | ay⟩
      · rw [List.find?_cons_of_neg _ (by unfold hitPred; rw [hr]; simp), ih]
      · rw [List.find?_cons_of_neg _ (by unfold hitPred; rw [hr]; simp), ih]
      · rw [List.find?_cons_of_neg _ (by unfold hitPred; rw [hr]; simp), ih]
      · dsimp only
        by_cases hc : (x ≥ ax ∧ x ≤ ax + o.cardWidth ∧
            y ≥ ay ∧ y ≤ ay + (o.cardPadding * 2 + o.lineHeight * 3))
        · rw [if_pos hc,
            List.find?_cons_of_pos _ (by unfold hitPred; rw [hr]; exact decide_eq_true hc)]
        · rw [if_neg hc,
            List.find?_cons_of_neg _ (by unfold hitPred; rw [hr]; simpa using hc), ih]

/-- Claim C4: the hit test returns the first message in store insertion
order whose resolved anchor is fully non-null and whose card box, of
width cardWidth and height 2·cardPadding + 3·lineHeight, contains the
point; messages with a null resolved coordinate are skipped, and the
result is null when no box contains the point. -/
theorem messageAtPoint_first_match (p : Prim) (h : Host) (x y : Int) :
    p.messageAtPoint h x y =
      p.messages.find? (hitPred p.strategy h p.options x y) :=
  messageAtPointList_eq_find p.strategy h p.options x y p.messages

/-! Claim C9. -/

/-- Claim C9 (amended): for exactly the messages in list order whose
resolved position has both coordinates non-null, the social snapshot
builder emits a record with the displayed position, the independently
resolved undisplaced base anchor (each coordinate possibly null) and the
hover flag, while the discord snapshot builder's records carry only the
displayed position and hover flag, with no base anchor point. -/
theorem snapshot_builder_contents :
    (∀ (st : SocialStrategy) (h : Host) (o : SocialMessageOptions)
        (hov : Option Nat) (ms : List SocialMessage),
      socialViewUpdate st h o hov ms = ms.filterMap (fun m =>
        match st.resolveAnchor h m with
        | (some ax, some ay) =>
            some { message := m, x := ax, y := ay,
                   anchorX := h.timeToCoordinate m.time,
                   anchorY := h.priceToCoordinate m.price,
                   options := o,
                   isHovered := hov = some m.id }
        | _ => none)) ∧
    (∀ (st : Strategy) (h : Host) (o : DiscordMessageOptions)
        (hov : Option Nat) (ms : List DiscordMessage),
      discordViewUpdate st h o hov ms = ms.filterMap (fun m =>
        match st.resolveAnchor h m with
        | (some ax, some ay) =>
            some { message := m, x := ax, y := ay,
                   options := o,
                   isHovered := hov = some m.id }
        | _ => none)) := by
  constructor
  · intro st h o hov ms
    induction ms with
    | nil => rfl
    | cons m rest ih =>
        unfold socialViewUpdate
        rcases hr : st.resolveAnchor h m with ⟨ax | ax, ay | ay⟩ <;>
          simp [List.filterMap_cons, hr, ih]
  · intro st h o hov ms
    induction ms with
    | nil => rfl
    | cons m rest ih =>
        unfold discordViewUpdate
        rcases hr : st.resolveAnchor h m with ⟨ax | ax, ay | ay⟩ <;>
          simp [List.filterMap_cons, hr, ih]

/-- Host fixture whose direct conversions already place the anchor at
(150, 70) with no drag offset in play. -/
def exHostShifted : Host where
  timeToCoordinate := fun t => if t = 50 then some 150 else none
  priceToCoordinate := fun v => if v = 100 then some 70 else none
  coordinateToTime := fun _ => none
  coordinateToPrice := fun _ => none
  rectLeft := 0
  rectTop := 0

/-- Counterexample to claim C9 as stated: two scenarios with different
undisplaced base anchors for message 1 — base (120, 80) displaced by
offset (30, -10) versus base (150, 70) with no offset — produce
identical discord snapshot records, so those records cannot contain the
independently resolved base anchor point. -/
theorem discord_snapshot_lacks_base_anchor_counterexample :
    discordViewUpdate (.draggable exDiscordStrategy) exHost defaultOptions none [exMsg] =
      discordViewUpdate (.draggable exFreshDiscordStrategy) exHostShifted defaultOptions none [exMsg] ∧
    exHost.timeToCoordinate exMsg.time ≠ exHostShifted.timeToCoordinate exMsg.time := by
  exact ⟨rfl, by decide⟩

/-! Claim C10. -/

/-- Claim C10: the options accessor returns a shallow copy: the copy
reads back the same configuration, lives at a fresh address, and
mutating it (writing any value at the returned address) leaves the
plugin's own options object unchanged, so later reads of the plugin's
configuration see the original value. -/
theorem options_accessor_is_shallow_copy (h : OptionsHeap) (a : Nat)
    (v : DiscordMessageOptions) (hv : heapRead h a = some v) :
    heapRead (optionsAccessor h a).1 (optionsAccessor h a).2 = some v ∧
    (optionsAccessor h a).2 ≠ a ∧
    (∀ w, heapRead (heapWrite (optionsAccessor h a).1 (optionsAccessor h a).2 w) a = some v) := by
  have ha : a < h.length := by
    by_contra hge
    push_neg at hge
    have : heapRead h a = none := by
      unfold heapRead
      exact List.getElem?_eq_none hge
    rw [this] at hv
    exact Option.noConfusion hv
  have hacc : optionsAccessor h a = (h ++ [v], h.length) := by
    unfold optionsAccessor
    rw [hv]
  refine ⟨?_, ?_, ?_⟩
  · rw [hacc]
    unfold heapRead
    simp
  · rw [hacc]
    exact Nat.ne_of_gt ha
  · intro w
    rw [hacc]
    unfold heapWrite heapRead
    rw [List.getElem?_set_ne (Nat.ne_of_gt ha)]
    rw [List.getElem?_append_left ha]
    exact hv

/-- Witness for claim C10 on a one-cell heap holding the default
options. -/
theorem options_accessor_witness :
    heapRead (optionsAccessor [defaultOptions] 0).1 (optionsAccessor [defaultOptions] 0).2
      = some defaultOptions ∧
    heapRead (heapWrite (optionsAccessor [defaultOptions] 0).1
        (optionsAccessor [defaultOptions] 0).2
        { defaultOptions with cardWidth := 9999 }) 0
      = some defaultOptions := by
  have h := options_accessor_is_shallow_copy [defaultOptions] 0 defaultOptions rfl
  exact ⟨h.1, h.2.2 { defaultOptions with cardWidth := 9999 }⟩

/-! Claim C2: lemmas about gesture folds over the social strategy. -/

theorem social_resolveAnchor_some (s : SocialDragStrategy) (h : Host)
    (m : SocialMessage) (bx bY : Int)
    (hbx : h.timeToCoordinate m.time = some bx)
    (hby : h.priceToCoordinate m.price = some bY) :
    ∃ ax ay, s.resolveAnchor h m = (some ax, some ay) := by
  unfold SocialDragStrategy.resolveAnchor
  rcases hg : mapGet s.pixelOffsets m.id with _ | off
  · rw [hbx, hby]
    exact ⟨bx, bY, by simp [hg]⟩
  · rw [hbx, hby]
    exact ⟨bx + off.1, bY + off.2, by simp [hg]⟩

theorem socialRunMoves_char (m : SocialMessage) (ds : SocialDragState)
    (hid : ds.messageId = m.id) :
    ∀ (moves : List (Int × Int)) (s : SocialDragStrategy), s.dragState = some ds →
      (socialRunMoves m s moves).dragState = some ds ∧
      (socialRunMoves m s moves).pixelOffsets =
        (match moves.getLast? with
         | none => s.pixelOffsets
         | some q => mapSet s.pixelOffsets m.id
             (ds.initialOffsetX + (q.1 - ds.startX),
              ds.initialOffsetY + (q.2 - ds.startY))) := by
  intro moves
  induction moves with
  | nil => intro s hds; exact ⟨hds, rfl⟩
  | cons q rest ih =>
      intro s hds
      have hstep : s.handleMouseMove m q.1 q.2 =
          { s with pixelOffsets := (mapSet s.pixelOffsets m.id (ds.initialOffsetX + (q.1 - ds.startX), ds.initialOffsetY + (q.2 - ds.startY))) } := by
        unfold SocialDragStrategy.handleMouseMove
        rw [hds]
        simp [hid]
      have hrun : socialRunMoves m s (q :: rest) =
          socialRunMoves m { s with pixelOffsets := (mapSet s.pixelOffsets m.id (ds.initialOffsetX + (q.1 - ds.startX), ds.initialOffsetY + (q.2 - ds.startY))) } rest := by
        show socialRunMoves m (s.handleMouseMove m q.1 q.2) rest = _
        rw [hstep]
      rw [hrun]
      obtain ⟨h1, h2⟩ := ih { s with pixelOffsets := (mapSet s.pixelOffsets m.id (ds.initialOffsetX + (q.1 - ds.startX), ds.initialOffsetY + (q.2 - ds.startY))) } hds
      refine ⟨h1, ?_⟩
      rw [h2]
      cases rest with
      | nil => simp
      | cons r rs =>
          have hcc : (q :: r :: rs).getLast? = (r :: rs).getLast? :=
            List.getLast?_cons_cons
          rcases hql : (r :: rs).getLast? with _ | qlast
          · exact absurd hql (by simp)
          · rw [hcc, hql]
            exact mapSet_mapSet _ _ _ _

theorem socialRunGesture_offset (h : Host) (m : SocialMessage) (bx bY : Int)
    (hbx : h.timeToCoordinate m.time = some bx)
    (hby : h.priceToCoordinate m.price = some bY)
    (s : SocialDragStrategy) (g : Gesture) :
    offsetOr0 (socialRunGesture h m s g).pixelOffsets m.id =
      padd (offsetOr0 s.pixelOffsets m.id) (gestureDelta g) := by
  obtain ⟨ax, ay, hres⟩ := social_resolveAnchor_some s h m bx bY hbx hby
  set ds : SocialDragState :=
    { messageId := m.id, startX := g.start.1, startY := g.start.2,
      initialOffsetX := (offsetOr0 s.pixelOffsets m.id).1,
      initialOffsetY := (offsetOr0 s.pixelOffsets m.id).2,
      isDragging := true } with hdsdef
  have hdown : s.handleMouseDown h m g.start.1 g.start.2 =
      { s with dragState := some ds } := by
    unfold SocialDragStrategy.handleMouseDown
    rw [hres]
  have hmoves := socialRunMoves_char m ds rfl g.moves
    { s with dragState := some ds } rfl
  obtain ⟨h1, h2⟩ := hmoves
  unfold socialRunGesture
  rw [hdown]
  have hup : ((socialRunMoves m { s with dragState := some ds } g.moves).handleMouseUp
      m 0 0).1.pixelOffsets =
      (socialRunMoves m { s with dragState := some ds } g.moves).pixelOffsets := by
    unfold SocialDragStrategy.handleMouseUp
    rw [h1]
    simp
  rw [hup, h2]
  rcases hql : g.moves.getLast? with _ | qlast
  · simp [gestureDelta, psub, padd, List.getLastD_eq_getLast?, hql]
  · rw [offsetOr0, mapGet_mapSet]
    simp [gestureDelta, psub, padd, List.getLastD_eq_getLast?, hql]

/-- Claim C2 (amended): against the social-message draggable strategy,
each move stores (offset in effect at the gesture's start) + (pointer −
gesture start), so over any finite sequence of completed gestures on the
same message the final offset in effect equals the initial offset plus
the componentwise sum of the gestures' (end pointer − start pointer)
deltas; a later drag continues from the card's last placement. -/
theorem social_drag_gestures_accumulate (h : Host) (m : SocialMessage) (bx bY : Int)
    (hbx : h.timeToCoordinate m.time = some bx)
    (hby : h.priceToCoordinate m.price = some bY)
    (s : SocialDragStrategy) (gs : List Gesture) :
    offsetOr0 (socialRunGestures h m s gs).pixelOffsets m.id =
      padd (offsetOr0 s.pixelOffsets m.id) (sumDeltas gs) := by
  induction gs generalizing s with
  | nil => exact (padd_zero _).symm
  | cons g rest ih =>
      show offsetOr0 (socialRunGestures h m (socialRunGesture h m s g) rest).pixelOffsets m.id = _
      rw [ih (socialRunGesture h m s g),
        socialRunGesture_offset h m bx bY hbx hby s g]
      show padd (padd _ (gestureDelta g)) (sumDeltas rest) = padd _ (sumDeltas (g :: rest))
      rw [padd_assoc]
      rfl

/-- Witness for claim C2: two completed gestures on message 1 against a
fresh social strategy, with deltas (30, -10) and (5, 7), leave the
accumulated offset (35, -3). -/
theorem social_drag_gestures_accumulate_witness :
    offsetOr0 (socialRunGestures exHost exSocialMsg exFreshSocialStrategy
      [{ start := (10, 10), moves := [(40, 0)] },
       { start := (0, 0), moves := [(5, 7)] }]).pixelOffsets 1 = (35, -3) := by
  have h := social_drag_gestures_accumulate exHost exSocialMsg 120 80
    (by decide) (by decide) exFreshSocialStrategy
    [{ start := (10, 10), moves := [(40, 0)] },
     { start := (0, 0), moves := [(5, 7)] }]
  rw [show exSocialMsg.id = 1 from rfl] at h
  rw [h]
  decide

/-- Counterexample to claim C2 as stated: one completed drag gesture
(down at (10, 10), a move to (40, 0), then up) on message 1 against the
discord draggable strategy, with a host whose inverse conversions
succeed, ends with no stored offset entry at all — the mouse-up handler
converted it into a new anchor and deleted it — instead of the gesture's
delta (30, -10). -/
theorem discord_gesture_offset_counterexample :
    mapGet (discordRunGesture exHost exMsg exFreshDiscordStrategy
      { start := (10, 10), moves := [(40, 0)] }).pixelOffsets 1 ≠ some (30, -10) := by
  decide

/-! Claim C6. -/

theorem onDocumentMouseUpBody_char (p : Prim) (h : Host) (cx cy : Int)
    (mid : Nat) (m : DiscordMessage) (hds : p.dragState = some (mid, m)) :
    p.onDocumentMouseUpBody h cx cy =
      (let p2 :=
        if p.isDragging then
          { p with
              strategy := (p.strategy.handleMouseUp h m (cx - h.rectLeft) (cy - h.rectTop)).1,
              messages := msgsUpdate p.messages
                (p.strategy.handleMouseUp h m (cx - h.rectLeft) (cy - h.rectTop)).2 }
        else p
      { p2 with
          panEnabled := true, docMoveListener := false, docUpListener := false,
          dragState := none, dragStartPos := none, dragResetPending := true }) := by
  unfold Prim.onDocumentMouseUpBody
  rw [hds]

/-- Claim C6: switching the positioning mode away from draggable while a
drag record exists first runs the normal release logic with the old
strategy — strategy endDrag plus store write-back when the drag is
confirmed, pan re-enable, document listener removal, drag-record
clearing — and only then installs the fixed resolver; afterwards no
document move/up listener is attached and the drag record is null. -/
theorem mode_switch_mid_drag_runs_release_first (p : Prim) (h : Host)
    (mid : Nat) (m : DiscordMessage) (hds : p.dragState = some (mid, m)) :
    (p.setPositioningMode h .fixed).docMoveListener = false ∧
    (p.setPositioningMode h .fixed).docUpListener = false ∧
    (p.setPositioningMode h .fixed).dragState = none ∧
    (p.setPositioningMode h .fixed).panEnabled = true ∧
    (p.setPositioningMode h .fixed).strategy = .fixed ∧
    (p.isDragging = true →
      (p.setPositioningMode h .fixed).messages =
        msgsUpdate p.messages
          (p.strategy.handleMouseUp h m (0 - h.rectLeft) (0 - h.rectTop)).2) := by
  cases hdrag : p.isDragging <;>
    simp [Prim.setPositioningMode, Prim.updatePositioningMode, Prim.onDocumentMouseUpBody,
      Prim.detachDragListeners, Prim.removeDocumentDragListeners, Prim.attachDragListeners,
      hds, hdrag]

/-- Witness for claim C6: switching the mid-drag fixture prim to fixed
mode removes the listeners, clears the drag record and persists the
converted anchor (time 53, price 95) to the store. -/
theorem mode_switch_mid_drag_witness :
    (exPrimDrag.setPositioningMode exHost .fixed).docMoveListener = false ∧
    (exPrimDrag.setPositioningMode exHost .fixed).dragState = none ∧
    (exPrimDrag.setPositioningMode exHost .fixed).messages =
      [{ exMsg with time := 53, price := 95 }] := by
  have h := mode_switch_mid_drag_runs_release_first exPrimDrag exHost 1 exMsg rfl
  refine ⟨h.1, h.2.2.1, ?_⟩
  rw [h.2.2.2.2.2 rfl]
  decide

/-! Claim C3: characterization of the pointer-down and the move fold. -/

theorem moveDelta_eq (h : Host) (sp : Int × Int) (cx cy : Int) :
    moveDelta h sp cx cy = (cx - sp.1, cy - sp.2) := by
  unfold moveDelta
  simp only [Prod.mk.injEq]
  constructor <;> omega

theorem onMouseDown_char (p : Prim) (h : Host) (m : DiscordMessage)
    (sd0 : Option DiscordDragState) (po : Offsets) (dcx dcy bx bY : Int)
    (hmode : p.chartMouseDownListener = true)
    (hstrat : p.strategy = .draggable { dragState := sd0, pixelOffsets := po })
    (hofs : mapGet po m.id = none)
    (hbx : h.timeToCoordinate m.time = some bx)
    (hby : h.priceToCoordinate m.price = some bY)
    (hhit : p.messageAtPoint h (dcx - h.rectLeft) (dcy - h.rectTop) = some m) :
    p.onMouseDown h dcx dcy =
      midDragState p m (dcx, dcy) false (gestureSds m (dcx, dcy) h (0, 0)) po p.scheduler := by
  simp [Prim.onMouseDown, hmode, hhit, hstrat, Strategy.handleMouseDown,
    DiscordDragStrategy.handleMouseDown, DiscordDragStrategy.resolveAnchor,
    hofs, hbx, hby, midDragState, gestureSds]

theorem onMove_below (p0 : Prim) (m : DiscordMessage) (sp : Int × Int)
    (sds : DiscordDragState) (po : Offsets) (sch : AnimationScheduler)
    (h : Host) (cx cy : Int) (hlt : sqDist (cx, cy) sp < 25) :
    (midDragState p0 m sp false sds po sch).onDocumentMouseMove h cx cy =
      midDragState p0 m sp false sds po sch := by
  unfold Prim.onDocumentMouseMove midDragState
  have hlt2 : (cx - sp.1) * (cx - sp.1) + (cy - sp.2) * (cy - sp.2) < 25 := hlt
  simp [hlt2]

theorem onMove_confirmed (p0 : Prim) (m : DiscordMessage) (sp : Int × Int)
    (d : Int × Int) (po : Offsets) (sch : AnimationScheduler)
    (h : Host) (cx cy : Int) :
    (midDragState p0 m sp true (gestureSds m sp h d) po sch).onDocumentMouseMove h cx cy =
      midDragState p0 m sp true (gestureSds m sp h (moveDelta h sp cx cy))
        (mapSet po m.id (moveDelta h sp cx cy)) sch.schedule := by
  unfold Prim.onDocumentMouseMove midDragState Strategy.handleMouseMove
    DiscordDragStrategy.handleMouseMove gestureSds moveDelta AnimationScheduler.schedule
  simp

theorem onMove_exceed (p0 : Prim) (m : DiscordMessage) (sp : Int × Int)
    (d : Int × Int) (po : Offsets) (sch : AnimationScheduler)
    (h : Host) (cx cy : Int) (hge : 25 ≤ sqDist (cx, cy) sp) :
    (midDragState p0 m sp false (gestureSds m sp h d) po sch).onDocumentMouseMove h cx cy =
      midDragState p0 m sp true (gestureSds m sp h (moveDelta h sp cx cy))
        (mapSet po m.id (moveDelta h sp cx cy)) sch.schedule := by
  unfold Prim.onDocumentMouseMove midDragState Strategy.handleMouseMove
    DiscordDragStrategy.handleMouseMove gestureSds moveDelta AnimationScheduler.schedule
  have hge2 : ¬((cx - sp.1) * (cx - sp.1) + (cy - sp.2) * (cy - sp.2) < 25) := by
    have : 25 ≤ (cx - sp.1) * (cx - sp.1) + (cy - sp.2) * (cy - sp.2) := hge
    omega
  simp [hge2]

theorem primRunMoves_confirmed (h : Host) (p0 : Prim) (m : DiscordMessage)
    (sp : Int × Int) :
    ∀ (moves : List (Int × Int)) (d : Int × Int) (po : Offsets) (sch : AnimationScheduler),
      primRunMoves h (midDragState p0 m sp true (gestureSds m sp h d) po sch) moves =
        (match moves.getLast? with
         | none => midDragState p0 m sp true (gestureSds m sp h d) po sch
         | some q => midDragState p0 m sp true (gestureSds m sp h (moveDelta h sp q.1 q.2))
             (mapSet po m.id (moveDelta h sp q.1 q.2)) sch.schedule) := by
  intro moves
  induction moves with
  | nil => intro d po sch; rfl
  | cons q rest ih =>
      intro d po sch
      have hstep : primRunMoves h (midDragState p0 m sp true (gestureSds m sp h d) po sch) (q :: rest) =
          primRunMoves h (midDragState p0 m sp true (gestureSds m sp h (moveDelta h sp q.1 q.2))
            (mapSet po m.id (moveDelta h sp q.1 q.2)) sch.schedule) rest := by
        show primRunMoves h ((midDragState p0 m sp true (gestureSds m sp h d) po sch).onDocumentMouseMove h q.1 q.2) rest = _
        rw [onMove_confirmed]
      rw [hstep, ih]
      cases rest with
      | nil => rfl
      | cons r rs =>
          rcases hql : (r :: rs).getLast? with _ | qlast
          · exact absurd hql (by simp)
          · rw [show (q :: r :: rs).getLast? = (r :: rs).getLast? from List.getLast?_cons_cons, hql]
            dsimp only
            rw [mapSet_mapSet]
            exact rfl

theorem primRunMoves_unconfirmed (h : Host) (p0 : Prim) (m : DiscordMessage)
    (sp : Int × Int) (po : Offsets) (sch : AnimationScheduler) :
    ∀ (moves : List (Int × Int)),
      ((∀ q ∈ moves, sqDist q sp < 25) →
        primRunMoves h (midDragState p0 m sp false (gestureSds m sp h (0, 0)) po sch) moves =
          midDragState p0 m sp false (gestureSds m sp h (0, 0)) po sch) ∧
      ((∃ q ∈ moves, 25 ≤ sqDist q sp) →
        ∃ qlast, moves.getLast? = some qlast ∧
          primRunMoves h (midDragState p0 m sp false (gestureSds m sp h (0, 0)) po sch) moves =
            midDragState p0 m sp true (gestureSds m sp h (moveDelta h sp qlast.1 qlast.2))
              (mapSet po m.id (moveDelta h sp qlast.1 qlast.2)) sch.schedule) := by
  intro moves
  induction moves with
  | nil =>
      refine ⟨fun _ => rfl, fun hex => absurd hex (by simp)⟩
  | cons q rest ih =>
      constructor
      · intro hall
        have hq : sqDist q sp < 25 := hall q (List.mem_cons_self q rest)
        have hstep : primRunMoves h (midDragState p0 m sp false (gestureSds m sp h (0, 0)) po sch) (q :: rest) =
            primRunMoves h (midDragState p0 m sp false (gestureSds m sp h (0, 0)) po sch) rest := by
          show primRunMoves h ((midDragState p0 m sp false (gestureSds m sp h (0, 0)) po sch).onDocumentMouseMove h q.1 q.2) rest = _
          rw [onMove_below _ _ _ _ _ _ _ _ _ hq]
        rw [hstep]
        exact ih.1 (fun r hr => hall r (List.mem_cons_of_mem q hr))
      · intro hex
        by_cases hq : 25 ≤ sqDist q sp
        · have hstep : primRunMoves h (midDragState p0 m sp false (gestureSds m sp h (0, 0)) po sch) (q :: rest) =
              primRunMoves h (midDragState p0 m sp true (gestureSds m sp h (moveDelta h sp q.1 q.2))
                (mapSet po m.id (moveDelta h sp q.1 q.2)) sch.schedule) rest := by
            show primRunMoves h ((midDragState p0 m sp false (gestureSds m sp h (0, 0)) po sch).onDocumentMouseMove h q.1 q.2) rest = _
            rw [onMove_exceed _ _ _ _ _ _ _ _ _ hq]
          rw [hstep, primRunMoves_confirmed]
          cases rest with
          | nil => exact ⟨q, rfl, rfl⟩
          | cons r rs =>
              rcases hql : (r :: rs).getLast? with _ | qlast
              · exact absurd hql (by simp)
              · refine ⟨qlast, ?_, ?_⟩
                · rw [show (q :: r :: rs).getLast? = (r :: rs).getLast? from List.getLast?_cons_cons, hql]
                · dsimp only
                  rw [mapSet_mapSet]
                  exact rfl
        · have hqlt : sqDist q sp < 25 := by omega
          have hstep : primRunMoves h (midDragState p0 m sp false (gestureSds m sp h (0, 0)) po sch) (q :: rest) =
              primRunMoves h (midDragState p0 m sp false (gestureSds m sp h (0, 0)) po sch) rest := by
            show primRunMoves h ((midDragState p0 m sp false (gestureSds m sp h (0, 0)) po sch).onDocumentMouseMove h q.1 q.2) rest = _
            rw [onMove_below _ _ _ _ _ _ _ _ _ hqlt]
          have hexr : ∃ r ∈ rest, 25 ≤ sqDist r sp := by
            rcases hex with ⟨r, hr, hge⟩
            rcases List.mem_cons.mp hr with hrq | hrr
            · exact absurd hge (by rw [hrq]; exact hq)
            · exact ⟨r, hrr, hge⟩
          obtain ⟨qlast, hql, heq⟩ := ih.2 hexr
          refine ⟨qlast, ?_, ?_⟩
          · cases rest with
            | nil => exact absurd hexr (by simp)
            | cons r rs =>
                rw [show (q :: r :: rs).getLast? = (r :: rs).getLast? from List.getLast?_cons_cons]
                exact hql
          · rw [hstep]
            exact heq

theorem messageAtPointList_congr (st1 st2 : Strategy) (h : Host)
    (o : DiscordMessageOptions) (x y : Int)
    (hres : ∀ mm, st1.resolveAnchor h mm = st2.resolveAnchor h mm) :
    ∀ ms, messageAtPointList st1 h o x y ms = messageAtPointList st2 h o x y ms := by
  intro ms
  induction ms with
  | nil => rfl
  | cons mm rest ih =>
      unfold messageAtPointList
      rw [hres mm, ih]

theorem onUp_unconfirmed (p0 : Prim) (m : DiscordMessage) (sp : Int × Int)
    (sds : DiscordDragState) (po : Offsets) (sch : AnimationScheduler)
    (h : Host) (ucx ucy : Int) :
    (midDragState p0 m sp false sds po sch).onDocumentMouseUp h ucx ucy =
      { p0 with
          panEnabled := true,
          dragState := none,
          isDragging := false,
          dragStartPos := none,
          strategy := .draggable { dragState := some sds, pixelOffsets := po },
          docMoveListener := false,
          docUpListener := false,
          scheduler := sch,
          dragResetPending := true } := by
  unfold Prim.onDocumentMouseUp Prim.onDocumentMouseUpBody midDragState
  simp

theorem onUp_confirmed_projections (p0 : Prim) (m : DiscordMessage) (sp : Int × Int)
    (sds : DiscordDragState) (po : Offsets) (sch : AnimationScheduler)
    (h : Host) (ucx ucy : Int) :
    ((midDragState p0 m sp true sds po sch).onDocumentMouseUp h ucx ucy).isDragging = true ∧
    ((midDragState p0 m sp true sds po sch).onDocumentMouseUp h ucx ucy).openedUrls = p0.openedUrls := by
  unfold Prim.onDocumentMouseUp Prim.onDocumentMouseUpBody midDragState
  simp

/-- Claim C3: for a gesture that begins with a pointer-down on a card in
draggable mode, the drag becomes confirmed exactly when some global move
reaches squared Euclidean distance 25 (5 px) from the pointer-down
position; if every move stays below the threshold no pixel offset is
mutated and the click after release opens the message's discord URL,
while if the threshold was reached the message's pixel-offset entry is
written (to last move − pointer-down) and the subsequent click at any
point opens nothing. -/
theorem drag_threshold_confirms_and_suppresses_click
    (p : Prim) (h : Host) (m : DiscordMessage) (sd0 : Option DiscordDragState)
    (po : Offsets) (dcx dcy bx bY : Int) (moves : List (Int × Int)) (ucx ucy : Int)
    (hmode : p.chartMouseDownListener = true)
    (hstrat : p.strategy = .draggable { dragState := sd0, pixelOffsets := po })
    (hofs : mapGet po m.id = none)
    (hbx : h.timeToCoordinate m.time = some bx)
    (hby : h.priceToCoordinate m.price = some bY)
    (hhit : p.messageAtPoint h (dcx - h.rectLeft) (dcy - h.rectTop) = some m) :
    ((primRunMoves h (p.onMouseDown h dcx dcy) moves).isDragging = true ↔
      ∃ q ∈ moves, 25 ≤ sqDist q (dcx, dcy)) ∧
    ((∀ q ∈ moves, sqDist q (dcx, dcy) < 25) →
      (primRunMoves h (p.onMouseDown h dcx dcy) moves).strategy.offsets = po ∧
      (((primRunMoves h (p.onMouseDown h dcx dcy) moves).onDocumentMouseUp h ucx ucy).clickHandler
          h (some (dcx - h.rectLeft, dcy - h.rectTop))).openedUrls =
        p.openedUrls ++ [m.discordUrl]) ∧
    ((∃ q ∈ moves, 25 ≤ sqDist q (dcx, dcy)) →
      (∃ qlast, moves.getLast? = some qlast ∧
        mapGet (primRunMoves h (p.onMouseDown h dcx dcy) moves).strategy.offsets m.id =
          some (qlast.1 - dcx, qlast.2 - dcy)) ∧
      ∀ cpt : Int × Int,
        (((primRunMoves h (p.onMouseDown h dcx dcy) moves).onDocumentMouseUp h ucx ucy).clickHandler
            h (some cpt)).openedUrls = p.openedUrls) := by
  have hdown := onMouseDown_char p h m sd0 po dcx dcy bx bY hmode hstrat hofs hbx hby hhit
  rw [hdown]
  have hrm := primRunMoves_unconfirmed h p m (dcx, dcy) po p.scheduler moves
  refine ⟨?_, ?_, ?_⟩
  · constructor
    · intro hdrag
      by_cases hex : ∃ q ∈ moves, 25 ≤ sqDist q (dcx, dcy)
      · exact hex
      · exfalso
        have hall : ∀ q ∈ moves, sqDist q (dcx, dcy) < 25 := by
          intro q hqm
          by_contra hge
          exact hex ⟨q, hqm, by omega⟩
        rw [hrm.1 hall] at hdrag
        simp [midDragState] at hdrag
    · intro hex
      obtain ⟨qlast, hql, heq⟩ := hrm.2 hex
      rw [heq]
      rfl
  · intro hall
    rw [hrm.1 hall]
    refine ⟨rfl, ?_⟩
    rw [onUp_unconfirmed]
    have hmsg : Prim.messageAtPoint
        { p with
            panEnabled := true, dragState := none, isDragging := false,
            dragStartPos := none,
            strategy := .draggable { dragState := some (gestureSds m (dcx, dcy) h (0, 0)), pixelOffsets := po },
            docMoveListener := false, docUpListener := false,
            scheduler := p.scheduler, dragResetPending := true }
        h (dcx - h.rectLeft) (dcy - h.rectTop) = some m := by
      unfold Prim.messageAtPoint at hhit ⊢
      dsimp only
      rw [messageAtPointList_congr
        (.draggable { dragState := some (gestureSds m (dcx, dcy) h (0, 0)), pixelOffsets := po })
        (.draggable { dragState := sd0, pixelOffsets := po }) h p.options
        (dcx - h.rectLeft) (dcy - h.rectTop) (fun mm => rfl)]
      rw [← hstrat]
      exact hhit
    unfold Prim.clickHandler
    dsimp only
    rw [if_neg (by simp), hmsg]
  · intro hex
    obtain ⟨qlast, hql, heq⟩ := hrm.2 hex
    rw [heq]
    constructor
    · refine ⟨qlast, hql, ?_⟩
      show mapGet (mapSet po m.id (moveDelta h (dcx, dcy) qlast.1 qlast.2)) m.id = _
      rw [mapGet_mapSet, moveDelta_eq]
    · intro cpt
      have hproj := onUp_confirmed_projections p m (dcx, dcy)
        (gestureSds m (dcx, dcy) h (moveDelta h (dcx, dcy) qlast.1 qlast.2))
        (mapSet po m.id (moveDelta h (dcx, dcy) qlast.1 qlast.2))
        p.scheduler.schedule h ucx ucy
      have hclick : (((midDragState p m (dcx, dcy) true
            (gestureSds m (dcx, dcy) h (moveDelta h (dcx, dcy) qlast.1 qlast.2))
            (mapSet po m.id (moveDelta h (dcx, dcy) qlast.1 qlast.2))
            p.scheduler.schedule).onDocumentMouseUp h ucx ucy).clickHandler h (some cpt)) =
          ((midDragState p m (dcx, dcy) true
            (gestureSds m (dcx, dcy) h (moveDelta h (dcx, dcy) qlast.1 qlast.2))
            (mapSet po m.id (moveDelta h (dcx, dcy) qlast.1 qlast.2))
            p.scheduler.schedule).onDocumentMouseUp h ucx ucy) := by
        unfold Prim.clickHandler
        simp [hproj.1]
      rw [hclick, hproj.2]

/-- Witness for claim C3: pointer-down at (125, 85) on the fixture card,
one move to (200, 85) (75 px away), confirms the drag and stores offset
(75, 0) for message 1. -/
theorem drag_threshold_witness :
    (primRunMoves exHost (exPrimFresh.onMouseDown exHost 125 85) [(200, 85)]).isDragging = true ∧
    mapGet (primRunMoves exHost (exPrimFresh.onMouseDown exHost 125 85) [(200, 85)]).strategy.offsets
      exMsg.id = some (75, 0) := by
  have h := drag_threshold_confirms_and_suppresses_click exPrimFresh exHost exMsg none []
    125 85 120 80 [(200, 85)] 200 85 rfl rfl rfl (by decide) (by decide) (by decide)
  refine ⟨h.1.mpr (by decide), ?_⟩
  obtain ⟨⟨qlast, hql, hoff⟩, _⟩ := h.2.2 (by decide)
  have hq : qlast = (200, 85) := by
    simp at hql
    exact hql.symm
  rw [hq] at hoff
  simpa using hoff

end Charts
